import Mathlib

/-!
Verification of the MPU9250 driver (src/libraries/mpu9250/mpu9250.c).

Modelling conventions for the shallow embedding:
* machine integers are Nat/Int with explicit two's-complement reduction
  (toInt32, toInt16, wrap32, wrap16) at the points where the C code uses
  fixed-width types and overflow or casts can occur;
* the FIFO buffer is a List Nat of bytes; the C buffer is memset to zero
  before the read, so reads past the filled region yield 0 (List.getD),
  and bytes are reduced mod 256 as the unsigned char type dictates;
* float arithmetic on conversion factors and sensor scaling is idealized
  over the rationals; external floating-point collaborators (quaternion
  normalization, Euler conversion, the complementary filters inside
  data_fusion) are uninterpreted parameters, so theorems hold for every
  interpretation of them;
* bus transfers are modelled by their observable outcomes (Option results
  and explicit write lists).
-/

namespace Mpu9250

/-- Expected FIFO packet lengths (mpu9250.c lines 18-19). -/
def FIFO_LEN_NO_MAG : Nat := 28

/-- Expected FIFO packet length with magnetometer data (mpu9250.c line 19). -/
def FIFO_LEN_MAG : Nat := 35

/-- Quaternion error threshold 1L shifted left 16 (mpu9250.c line 22). -/
def QUAT_ERROR_THRESH : Int := 2 ^ 16

/-- Nominal normalized quaternion magnitude squared, 1L shifted left 28 (line 23). -/
def QUAT_MAG_SQ_NORMALIZED : Int := 2 ^ 28

/-- Lower edge of the acceptance band (mpu9250.c line 24). -/
def QUAT_MAG_SQ_MIN : Int := QUAT_MAG_SQ_NORMALIZED - QUAT_ERROR_THRESH

/-- Upper edge of the acceptance band (mpu9250.c line 25). -/
def QUAT_MAG_SQ_MAX : Int := QUAT_MAG_SQ_NORMALIZED + QUAT_ERROR_THRESH

/-- Gyro calibration noise threshold (mpu9250.c line 26). -/
def GYRO_CAL_THRESH : Int := 50

/-- Gyro calibration offset threshold (mpu9250.c line 27). -/
def GYRO_OFFSET_THRESH : Int := 500

/-- Byte k of the FIFO buffer: the C buffer holds unsigned chars and is
zeroed by memset beyond the bytes actually read, so missing indices give 0
and every value is reduced mod 256. -/
def byteAt (raw : List Nat) (k : Nat) : Nat := raw.getD k 0 % 256

/-- Signed value of a 32-bit two's-complement pattern. -/
def toInt32 (n : Nat) : Int := if n < 2 ^ 31 then (n : Int) else (n : Int) - 2 ^ 32

/-- Signed value of a 16-bit two's-complement pattern. -/
def toInt16 (n : Nat) : Int := if n < 2 ^ 15 then (n : Int) else (n : Int) - 2 ^ 16

/-- Big-endian signed 32-bit field starting at byte k, as built by the
shift-or chains in mpu9250.c (e.g. lines 1811-1818 and 1699-1706). -/
def decode_s32be (raw : List Nat) (k : Nat) : Int :=
  toInt32 (byteAt raw k * 2 ^ 24 + byteAt raw (k + 1) * 2 ^ 16 +
    byteAt raw (k + 2) * 2 ^ 8 + byteAt raw (k + 3))

/-- Big-endian signed 16-bit field starting at byte k (accel/gyro decode,
mpu9250.c lines 1722-1724 and 1734-1736). -/
def decode_s16be (raw : List Nat) (k : Nat) : Int :=
  toInt16 (byteAt raw k * 2 ^ 8 + byteAt raw (k + 1))

/-- Little-endian signed 16-bit field starting at byte k (magnetometer
decode, mpu9250.c lines 1749-1751). -/
def decode_s16le (raw : List Nat) (k : Nat) : Int :=
  toInt16 (byteAt raw (k + 1) * 2 ^ 8 + byteAt raw k)

/-- Arithmetic right shift by 16 of a signed 32-bit value: the semantics of
the C expression quat shifted right 16 on a two's-complement target, which
is floor division by 2 to the 16. -/
def asr16 (v : Int) : Int := Int.fdiv v (2 ^ 16)

/-- Wrap-around of a signed 32-bit accumulation, modelling the overflow
behaviour of 32-bit long arithmetic on the target. -/
def wrap32 (v : Int) : Int := (v + 2 ^ 31) % 2 ^ 32 - 2 ^ 31

/-- Wrap-around of a cast to int16_t. -/
def wrap16 (v : Int) : Int := (v + 2 ^ 15) % 2 ^ 16 - 2 ^ 15

/-- Reduced-magnitude quaternion field k of the candidate sub-record at
offset i: decode the big-endian 32-bit field, arithmetic-shift right 16
(mpu9250.c lines 1811-1824). -/
def quat_q14 (raw : List Nat) (i : Nat) (k : Nat) : Int :=
  asr16 (decode_s32be raw (i + 4 * k))

/-- Mathematical (unwrapped) sum of the four squared reduced fields. -/
def quat_mag_sq (raw : List Nat) (i : Nat) : Int :=
  quat_q14 raw i 0 * quat_q14 raw i 0 + quat_q14 raw i 1 * quat_q14 raw i 1 +
  quat_q14 raw i 2 * quat_q14 raw i 2 + quat_q14 raw i 3 * quat_q14 raw i 3

/-- check_quaternion_validity (mpu9250.c lines 1808-1834): the squared sum
is accumulated in 32-bit long arithmetic (hence wrap32) and tested against
the band; the source performs the identical range test twice, which is
kept here. -/
def check_quaternion_validity (raw : List Nat) (i : Nat) : Bool :=
  let quat_mag_sq_c := wrap32 (quat_mag_sq raw i)
  if quat_mag_sq_c < QUAT_MAG_SQ_MIN ∨ QUAT_MAG_SQ_MAX < quat_mag_sq_c then false
  else if quat_mag_sq_c < QUAT_MAG_SQ_MIN ∨ QUAT_MAG_SQ_MAX < quat_mag_sq_c then false
  else true

/-- Outcome of the FIFO byte-count checks at the top of read_dmp_fifo:
empty FIFO (plain failure, no reset), a recognized count carrying a parse
offset i and the two availability flags, or corruption (reset and fail). -/
inductive FifoClass
  | empty : FifoClass
  | data (i : Nat) (mag_data_available dmp_data_available : Bool) : FifoClass
  | corrupt : FifoClass
deriving DecidableEq

/-- The byte-count dispatch of read_dmp_fifo (mpu9250.c lines 1563-1652),
with the branches in source order: 0, 28, 35, 42, 63, 77, 2 packets of 28,
2 packets of 35, the magnetometer-only counts, and the corruption fall
through. -/
def classify_fifo_count (fifo_count : Nat) : FifoClass :=
  if fifo_count = 0 then .empty
  else if fifo_count = FIFO_LEN_NO_MAG then .data 0 false true
  else if fifo_count = FIFO_LEN_MAG then .data 0 true true
  else if fifo_count = 42 then .data 7 false true
  else if fifo_count = 63 then .data 28 false true
  else if fifo_count = 77 then .data 42 false true
  else if fifo_count = 2 * FIFO_LEN_NO_MAG then .data FIFO_LEN_NO_MAG false true
  else if fifo_count = 2 * FIFO_LEN_MAG then .data FIFO_LEN_MAG true true
  else if fifo_count = 7 ∨ fifo_count = 14 ∨ fifo_count = 21 then
    .data (fifo_count - 7) true false
  else .corrupt

/-- Claim-side classification table, written exactly as claim C1 words it:
28 and 35 parse one packet at offset 0 (35 with magnetometer data), 56 and
70 parse the most recent packet at offsets 28 and 35, the degraded counts
42, 63, 77 use fixed offsets 7, 28, 42 with no magnetometer data, 7, 14,
21 are magnetometer-only at offset count minus 7, 0 is empty, and
everything else is corruption. -/
def spec_fifo_table (n : Nat) : FifoClass :=
  if n = 28 then .data 0 false true
  else if n = 35 then .data 0 true true
  else if n = 56 then .data 28 false true
  else if n = 70 then .data 35 true true
  else if n = 42 then .data 7 false true
  else if n = 63 then .data 28 false true
  else if n = 77 then .data 42 false true
  else if n = 7 ∨ n = 14 ∨ n = 21 then .data (n - 7) true false
  else if n = 0 then .empty
  else .corrupt

/-- Rational triple, used for the float vector fields of imu_data_t. -/
structure V3 where
  x : ℚ
  y : ℚ
  z : ℚ
deriving DecidableEq

/-- Rational quadruple, used for the quaternion fields of imu_data_t. -/
structure V4 where
  w : ℚ
  x : ℚ
  y : ℚ
  z : ℚ
deriving DecidableEq

/-- Integer triple, used for the raw int16_t vector fields of imu_data_t. -/
structure I3 where
  x : Int
  y : Int
  z : Int
deriving DecidableEq

/-- The caller-owned sample record imu_data_t, restricted to the fields the
driver file reads or writes; float fields are idealized as rationals. -/
structure ImuData where
  accel_to_ms2 : ℚ
  gyro_to_degs : ℚ
  dmp_quat : V4
  dmp_TaitBryan : V3
  raw_accel : I3
  accel : V3
  raw_gyro : I3
  gyro : V3
  mag : V3
  compass_heading_raw : ℚ
  compass_heading : ℚ
  fused_TaitBryan : V3
  fused_quat : V4
  temp : ℚ
deriving DecidableEq

/-- Uninterpreted floating-point collaborators used by read_dmp_fifo:
normalizeQuaternion and quaternionToTaitBryan live in the excluded math
library, so they are carried as parameters and every theorem below holds
for all of them. -/
structure MathOps where
  normalizeQuaternion : V4 → V4
  quaternionToTaitBryan : V4 → V3

/-- Numeric results of one successful data_fusion pass (mpu9250.c lines
1849-1985): the raw magnetic heading, the filtered yaw, and the quaternion
rebuilt from the fused Euler angles. These come out of floating-point trig
and the complementary filters, so they are parameters; the source writes
either all fused fields or none (the invalid-orientation and NaN-heading
aborts at lines 1918 and 1933 return before any record write), which
apply_data_fusion mirrors with an Option. -/
structure FusionVals where
  heading_raw : ℚ
  heading : ℚ
  fused_quat : V4

/-- Effect of the data_fusion call on the sample record: fused pitch and
roll pass through from the DMP Tait-Bryan angles, the fused yaw and
compass heading take the filtered value (mpu9250.c lines 1935, 1977-1983). -/
def apply_data_fusion (fv : Option FusionVals) (d : ImuData) : ImuData :=
  match fv with
  | none => d
  | some v =>
    { d with compass_heading_raw := v.heading_raw,
             compass_heading := v.heading,
             fused_TaitBryan := ⟨d.dmp_TaitBryan.x, d.dmp_TaitBryan.y, v.heading⟩,
             fused_quat := v.fused_quat }

/-- Magnetometer raw-to-microtesla factor. Modelled from the spec: the
constant lives in the missing mpu9250_defs.h header; its exact value never
matters to the claims, only that the same fixed factor scales all three
axes. -/
def MAG_RAW_TO_uT : ℚ := 4912 / 32760

/-- Inputs of one read_dmp_fifo cycle: the relevant globals and
configuration fields, and the observable outcomes of the two bus reads
(fifo count register, FIFO block read after the one retry of line 1667). -/
structure FifoCycleInput where
  dmp_en : Bool
  packet_len : Nat
  enable_magnetometer : Bool
  fifo_count_read : Option Nat
  fifo_read : Option (List Nat)
  mag_factory_adjust : V3
  mag_offsets : V3
  mag_scales : V3

/-- Observable outcome of one read_dmp_fifo cycle: the return value, the
is_new_dmp_data flag, the sample record, the (possibly repaired)
mag_scales global, and how many times mpu_reset_fifo was called. -/
structure FifoOut where
  ret : Int
  is_new_dmp_data : Bool
  data : ImuData
  mag_scales : V3
  fifo_resets : Nat
deriving DecidableEq

/-- Failure outcome: return -1 with the record untouched. -/
def mkFail (d : ImuData) (sc : V3) (resets : Nat) : FifoOut :=
  ⟨-1, false, d, sc, resets⟩

/-- Quaternion location logic of read_dmp_fifo (mpu9250.c lines
1680-1696): try the magnetometer-before offset i+7 (only when the
magnetometer is enabled), then the magnetometer-after offset i; on success
return the DMP offset j together with the final magnetometer offset. -/
def locate_quat (enable_mag : Bool) (raw : List Nat) (i : Nat) :
    Option (Nat × Nat) :=
  if enable_mag = true ∧ check_quaternion_validity raw (i + 7) = true then
    some (i + 7, i)
  else if check_quaternion_validity raw i = true then
    some (i, i + FIFO_LEN_NO_MAG)
  else none

/-- DMP sub-record parse (mpu9250.c lines 1697-1742): decode the four
signed 32-bit big-endian quaternion fields, store the normalized
quaternion and its Tait-Bryan angles, then the big-endian accel and gyro
triplets scaled by the configured conversion factors. -/
def parse_dmp_section (mo : MathOps) (raw : List Nat) (j : Nat) (d : ImuData) :
    ImuData :=
  let quat : V4 := ⟨(decode_s32be raw (j + 0) : ℚ), (decode_s32be raw (j + 4) : ℚ),
    (decode_s32be raw (j + 8) : ℚ), (decode_s32be raw (j + 12) : ℚ)⟩
  let nq := mo.normalizeQuaternion quat
  let tb := mo.quaternionToTaitBryan nq
  let ra : I3 := ⟨decode_s16be raw (j + 16), decode_s16be raw (j + 18),
    decode_s16be raw (j + 20)⟩
  let rg : I3 := ⟨decode_s16be raw (j + 22), decode_s16be raw (j + 24),
    decode_s16be raw (j + 26)⟩
  { d with dmp_quat := nq,
           dmp_TaitBryan := tb,
           raw_accel := ra,
           accel := ⟨(ra.x : ℚ) * d.accel_to_ms2, (ra.y : ℚ) * d.accel_to_ms2,
             (ra.z : ℚ) * d.accel_to_ms2⟩,
           raw_gyro := rg,
           gyro := ⟨(rg.x : ℚ) * d.gyro_to_degs, (rg.y : ℚ) * d.gyro_to_degs,
             (rg.z : ℚ) * d.gyro_to_degs⟩ }

/-- Magnetometer sub-record parse (mpu9250.c lines 1746-1777): decode the
little-endian triple at offset i; an all-zero triple is skipped; otherwise
apply the factory sensitivity with the axis remap and sign flip, coerce a
zero user scale to 1, and store the calibrated vector. Returns the record
and the possibly repaired mag_scales global. -/
def parse_mag_section (mag_data_available : Bool) (raw : List Nat) (i : Nat)
    (adj offs scl : V3) (d : ImuData) : ImuData × V3 :=
  if mag_data_available = false then (d, scl)
  else
    let m0 := decode_s16le raw (i + 0)
    let m1 := decode_s16le raw (i + 2)
    let m2 := decode_s16le raw (i + 4)
    if m0 = 0 ∧ m1 = 0 ∧ m2 = 0 then (d, scl)
    else
      let f0 := (m1 : ℚ) * adj.y * MAG_RAW_TO_uT
      let f1 := (m0 : ℚ) * adj.x * MAG_RAW_TO_uT
      let f2 := -(m2 : ℚ) * adj.z * MAG_RAW_TO_uT
      let s : V3 := ⟨if scl.x = 0 then 1 else scl.x,
        if scl.y = 0 then 1 else scl.y,
        if scl.z = 0 then 1 else scl.z⟩
      ({ d with mag := ⟨(f0 - offs.x) * s.x, (f1 - offs.y) * s.y,
          (f2 - offs.z) * s.z⟩ }, s)

/-- read_dmp_fifo (mpu9250.c lines 1518-1797) as a state transformer:
the guard checks, the byte-count dispatch, the FIFO block read, the
quaternion location and DMP parse, the magnetometer parse, the
data_fusion call when new DMP data and the magnetometer are both present,
and the return value driven solely by is_new_dmp_data. -/
def read_dmp_fifo (mo : MathOps) (fv : Option FusionVals)
    (inp : FifoCycleInput) (d0 : ImuData) : FifoOut :=
  if inp.dmp_en = false then mkFail d0 inp.mag_scales 0
  else if inp.packet_len ≠ FIFO_LEN_NO_MAG ∧ inp.packet_len ≠ FIFO_LEN_MAG then
    mkFail d0 inp.mag_scales 0
  else
    match inp.fifo_count_read with
    | none => mkFail d0 inp.mag_scales 0
    | some fifo_count =>
      match classify_fifo_count fifo_count with
      | .empty => mkFail d0 inp.mag_scales 0
      | .corrupt => mkFail d0 inp.mag_scales 1
      | .data i mag_av dmp_av =>
        match inp.fifo_read with
        | none => mkFail d0 inp.mag_scales 0
        | some raw =>
          if dmp_av then
            match locate_quat inp.enable_magnetometer raw i with
            | none => mkFail d0 inp.mag_scales 1
            | some ji =>
              let d1 := parse_dmp_section mo raw ji.1 d0
              let ms := parse_mag_section mag_av raw ji.2 inp.mag_factory_adjust
                inp.mag_offsets inp.mag_scales d1
              let d3 := if inp.enable_magnetometer = true then
                apply_data_fusion fv ms.1 else ms.1
              ⟨0, true, d3, ms.2, 0⟩
          else
            let ms := parse_mag_section mag_av raw i inp.mag_factory_adjust
              inp.mag_offsets inp.mag_scales d0
            ⟨-1, false, ms.1, ms.2, 0⟩

/-- The gyro full-scale enum of the public header. The C enum is an open
int type, so one extra constructor stands for every value outside the four
named ones (the default arm of the switch). -/
inductive gyro_fsr_t
  | G_FSR_250DPS : gyro_fsr_t
  | G_FSR_500DPS : gyro_fsr_t
  | G_FSR_1000DPS : gyro_fsr_t
  | G_FSR_2000DPS : gyro_fsr_t
  | invalid_gyro_fsr : gyro_fsr_t
deriving DecidableEq

/-- The accel full-scale enum of the public header, with the same open
extra constructor for out-of-enum int values. -/
inductive accel_fsr_t
  | A_FSR_2G : accel_fsr_t
  | A_FSR_4G : accel_fsr_t
  | A_FSR_8G : accel_fsr_t
  | A_FSR_16G : accel_fsr_t
  | invalid_accel_fsr : accel_fsr_t
deriving DecidableEq

/-- Observable outcome of set_gyro_fsr and set_accel_fsr: the return
value, the conversion factor stored into the sample record (none when the
record is untouched), and whether the single configuration-register write
was reached. The register byte value itself lives in the missing
mpu9250_defs.h header and is not modelled. -/
structure FsrOutcome where
  ret : Int
  factor : Option ℚ
  wrote_reg : Bool
deriving DecidableEq

/-- Claim-side formula: gyro conversion factor range/32768 degrees per
least significant bit. -/
def gyro_conv (range : ℚ) : ℚ := range / 32768

/-- Claim-side formula: accel conversion factor 9.807 times range/32768. -/
def accel_conv (range : ℚ) : ℚ := 9807 / 1000 * range / 32768

/-- set_gyro_fsr (mpu9250.c lines 426-450): each valid enum value stores
its conversion factor and then performs the register write, whose bus
result bus_ret becomes the return value; the default arm returns -1
before any write. -/
def set_gyro_fsr (fsr : gyro_fsr_t) (bus_ret : Int) : FsrOutcome :=
  match fsr with
  | .G_FSR_250DPS => ⟨bus_ret, some ((250 : ℚ) / 32768), true⟩
  | .G_FSR_500DPS => ⟨bus_ret, some ((500 : ℚ) / 32768), true⟩
  | .G_FSR_1000DPS => ⟨bus_ret, some ((1000 : ℚ) / 32768), true⟩
  | .G_FSR_2000DPS => ⟨bus_ret, some ((2000 : ℚ) / 32768), true⟩
  | .invalid_gyro_fsr => ⟨-1, none, false⟩

/-- set_accel_fsr (mpu9250.c lines 457-482): same shape as set_gyro_fsr
with the 9.807 gravity factor in the stored conversion. -/
def set_accel_fsr (fsr : accel_fsr_t) (bus_ret : Int) : FsrOutcome :=
  match fsr with
  | .A_FSR_2G => ⟨bus_ret, some ((9807 : ℚ) / 1000 * 2 / 32768), true⟩
  | .A_FSR_4G => ⟨bus_ret, some ((9807 : ℚ) / 1000 * 4 / 32768), true⟩
  | .A_FSR_8G => ⟨bus_ret, some ((9807 : ℚ) / 1000 * 8 / 32768), true⟩
  | .A_FSR_16G => ⟨bus_ret, some ((9807 : ℚ) / 1000 * 16 / 32768), true⟩
  | .invalid_accel_fsr => ⟨-1, none, false⟩

/-- One processed POLLPRI event of the interrupt handler loop (mpu9250.c
lines 1455-1482): read_dmp_fifo ran and returned read_ret, the
last_read_successful flag becomes read_ret equal 0; on the very first
processed event the first_run flag is cleared and nothing is called,
afterwards the user callback runs exactly when one is registered and the
drain succeeded. Returns the new first_run flag and whether the callback
was invoked. -/
def imu_interrupt_event (first_run : Bool) (func_set : Bool)
    (read_ret : Int) : Bool × Bool :=
  if first_run = true then (false, false)
  else (false, func_set && decide (read_ret = 0))

/-- Fold of the interrupt handler over a list of processed events, each
carrying the registered-callback flag at that moment and the drain
result; poll timeouts skip the body entirely and therefore do not appear.
Produces the per-event callback-invocation trace. -/
def imu_interrupt_run (first_run : Bool) :
    List (Bool × Int) → List Bool
  | [] => []
  | e :: rest =>
    let step := imu_interrupt_event first_run e.1 e.2
    step.2 :: imu_interrupt_run step.1 rest

/-- Maximum DMP output rate in Hz. Modelled from the spec: the constant is
defined in the missing mpu9250_defs.h header; the spec only requires it to
be a fixed positive maximum, and no theorem below depends on its exact
value. -/
def DMP_MAX_RATE : Nat := 200

/-- The fixed 12-byte trailer written after the rate divider (mpu9250.c
lines 1053-1054). Modelled from the spec: the DINA byte constants live in
the missing dmpKey.h header, so the trailer is carried as an arbitrary
fixed 12-byte sequence. -/
def regs_end : List Nat := [0xFE, 0xF2, 0xAB, 0xC4, 0xAA, 0xF1, 0xDF, 0xDF,
  0xBB, 0xAF, 0xDF, 0xDF]

/-- Observable outcome of dmp_set_fifo_rate: whether the guard rejected
the rate before doing anything, the computed divider (none when the C
division DMP_MAX_RATE / rate is undefined because rate is 0), and the
byte sequences written to DMP memory. -/
structure FifoRateOutcome where
  rejected : Bool
  divider : Option Nat
  writes : List (List Nat)
deriving DecidableEq

/-- dmp_set_fifo_rate (mpu9250.c lines 1052-1075): reject rates above the
maximum, compute div as DMP_MAX_RATE / rate - 1, write the two divider
bytes then the fixed 12-byte trailer. A rate of 0 passes the guard but
makes the divider computation divide by zero, which the model records as a
none divider with no defined writes. -/
def dmp_set_fifo_rate (rate : Nat) : FifoRateOutcome :=
  if DMP_MAX_RATE < rate then ⟨true, none, []⟩
  else if rate = 0 then ⟨false, none, []⟩
  else
    let div := DMP_MAX_RATE / rate - 1
    ⟨false, some div, [[div / 2 ^ 8 % 2 ^ 8, div % 2 ^ 8], regs_end]⟩

/-- Firmware chunk size: the loader walks 16 bytes at a time (comment at
mpu9250.c line 967; the DMP_LOAD_CHUNK constant itself sits in the missing
defs header). -/
def DMP_LOAD_CHUNK : Nat := 16

/-- Observable behaviour of the DMP memory bus for the firmware loader:
whether the chunk write at a given offset succeeds, and what the read-back
at a given offset returns (none is an I2C failure). -/
structure DmpDevice where
  write_ok : Nat → Bool
  read_res : Nat → Option (List Nat)

/-- The chunk loop of dmp_load_motion_driver_firmware (mpu9250.c lines
969-983): at offset ii with rest of the image remaining, write
min(DMP_LOAD_CHUNK, remaining) bytes, read them back, and memcmp against
the image; -1 for an I2C failure, -2 for a read-back mismatch, else
continue; at the end the program start address write gives 0 or -1
according to start_write_ok (lines 985-990). -/
def dmp_load_loop (dev : DmpDevice) (start_write_ok : Bool) (ii : Nat)
    (rest : List Nat) : Int :=
  match rest with
  | [] => if start_write_ok then 0 else -1
  | a :: t =>
    let w := min DMP_LOAD_CHUNK (a :: t).length
    if dev.write_ok ii = false then -1
    else
      match dev.read_res ii with
      | none => -1
      | some cur =>
        if cur = (a :: t).take w then
          dmp_load_loop dev start_write_ok (ii + w) ((a :: t).drop w)
        else -2
termination_by rest.length
decreasing_by
  simp [List.length_drop, List.length_cons, DMP_LOAD_CHUNK]

/-- dmp_load_motion_driver_firmware (mpu9250.c lines 956-993) over an
arbitrary firmware image, starting at offset 0. -/
def dmp_load_motion_driver_firmware (dev : DmpDevice) (image : List Nat)
    (start_write_ok : Bool) : Int :=
  dmp_load_loop dev start_write_ok 0 image

/-- A device with no transport failures whose memory read-back at offset
ii returns min(DMP_LOAD_CHUNK, image_len - ii) bytes of the list rb. -/
def pure_device (rb : List Nat) (image_len : Nat) : DmpDevice :=
  ⟨fun _ => true,
   fun ii => some ((rb.drop ii).take (min DMP_LOAD_CHUNK (image_len - ii)))⟩

/-- Mean of a list of raw samples over the rationals. -/
def list_mean (xs : List Int) : ℚ := (xs.sum : ℚ) / xs.length

/-- Population variance over the rationals. Modelled from the spec: the
standard_deviation routine belongs to the excluded math collaborator
library, and the spec only says the per-axis standard deviation is
compared against the fixed noise threshold; over the reals dev is greater
than 50 exactly when the variance is greater than 2500, which is the form
used here to stay inside the rationals. -/
def list_variance (xs : List Int) : ℚ :=
  ((xs.map fun x => ((x : ℚ) - list_mean xs) ^ 2).sum) / xs.length

/-- Outcome of one COLLECT_DATA pass of calibrate_gyro_routine. -/
inductive GyroCalOutcome
  | ioError : GyroCalOutcome
  | retry : GyroCalOutcome
  | persist (x y z : Int) : GyroCalOutcome
deriving DecidableEq

/-- The decision core of one COLLECT_DATA pass (mpu9250.c lines
2143-2233) on the decoded sample triples: retry when any per-axis
standard deviation exceeds GYRO_CAL_THRESH (variance form, see
list_variance), otherwise compute the truncated integer means cast to
int16_t, retry when any magnitude exceeds GYRO_OFFSET_THRESH, otherwise
the offsets are written to disk (persist). -/
def gyro_iteration (triples : List (Int × Int × Int)) : GyroCalOutcome :=
  let xs := triples.map fun t => t.1
  let ys := triples.map fun t => t.2.1
  let zs := triples.map fun t => t.2.2
  if (GYRO_CAL_THRESH : ℚ) * GYRO_CAL_THRESH < list_variance xs ∨
     (GYRO_CAL_THRESH : ℚ) * GYRO_CAL_THRESH < list_variance ys ∨
     (GYRO_CAL_THRESH : ℚ) * GYRO_CAL_THRESH < list_variance zs then .retry
  else
    let o1 := wrap16 (Int.tdiv xs.sum triples.length)
    let o2 := wrap16 (Int.tdiv ys.sum triples.length)
    let o3 := wrap16 (Int.tdiv zs.sum triples.length)
    if GYRO_OFFSET_THRESH < |o1| ∨ GYRO_OFFSET_THRESH < |o2| ∨
       GYRO_OFFSET_THRESH < |o3| then .retry
    else .persist o1 o2 o3

/-- The per-axis integer offsets a dataset produces: truncated mean cast
to int16_t (mpu9250.c lines 2210-2212). -/
def gyro_offsets (triples : List (Int × Int × Int)) : Int × Int × Int :=
  (wrap16 (Int.tdiv (triples.map fun t => t.1).sum triples.length),
   wrap16 (Int.tdiv (triples.map fun t => t.2.1).sum triples.length),
   wrap16 (Int.tdiv (triples.map fun t => t.2.2).sum triples.length))

/-- Claim-side acceptance condition of C9: per-axis standard deviation at
most the noise threshold 50 (stated in variance form) and per-axis offset
magnitude at most the offset threshold 500. -/
def gyro_dataset_quiet (triples : List (Int × Int × Int)) : Prop :=
  list_variance (triples.map fun t => t.1) ≤
    (GYRO_CAL_THRESH : ℚ) * GYRO_CAL_THRESH ∧
  list_variance (triples.map fun t => t.2.1) ≤
    (GYRO_CAL_THRESH : ℚ) * GYRO_CAL_THRESH ∧
  list_variance (triples.map fun t => t.2.2) ≤
    (GYRO_CAL_THRESH : ℚ) * GYRO_CAL_THRESH ∧
  |(gyro_offsets triples).1| ≤ GYRO_OFFSET_THRESH ∧
  |(gyro_offsets triples).2.1| ≤ GYRO_OFFSET_THRESH ∧
  |(gyro_offsets triples).2.2| ≤ GYRO_OFFSET_THRESH

instance (triples : List (Int × Int × Int)) :
    Decidable (gyro_dataset_quiet triples) := by
  unfold gyro_dataset_quiet
  infer_instance

/-- One COLLECT_DATA pass including the FIFO decode (mpu9250.c lines
2156-2189): samples = fifo_count / 6, each sample is a 6-byte FIFO read
decoded as three big-endian int16 values; a failed read aborts the pass
with -1 (ioError). -/
def calibrate_gyro_collect (fifo_count : Nat)
    (reads : Nat → Option (List Nat)) : GyroCalOutcome :=
  let samples := fifo_count / 6
  match (List.range samples).mapM
      (fun k => (reads k).map fun d =>
        (decode_s16be d 0, decode_s16be d 2, decode_s16be d 4)) with
  | none => .ioError
  | some triples => gyro_iteration triples

/-- Concrete math-collaborator fixture for witnesses. -/
def testMathOps : MathOps := ⟨fun q => q, fun _ => ⟨0, 0, 0⟩⟩

/-- Concrete sample-record fixture for witnesses. -/
def testImuData : ImuData :=
  ⟨1, 1, ⟨0, 0, 0, 0⟩, ⟨0, 0, 0⟩, ⟨0, 0, 0⟩, ⟨0, 0, 0⟩, ⟨0, 0, 0⟩,
   ⟨0, 0, 0⟩, ⟨5, 6, 7⟩, 0, 0, ⟨0, 0, 0⟩, ⟨0, 0, 0, 0⟩, 0⟩

/-- Concrete cycle-input fixture for witnesses. -/
def testInput : FifoCycleInput :=
  ⟨true, 28, false, none, none, ⟨1, 1, 1⟩, ⟨0, 0, 0⟩, ⟨1, 1, 1⟩⟩

/-- Concrete cycle-input fixture with the magnetometer enabled. -/
def testInputMag : FifoCycleInput :=
  ⟨true, 35, true, none, none, ⟨1, 1, 1⟩, ⟨0, 0, 0⟩, ⟨1, 1, 1⟩⟩

/-- A FIFO buffer whose quaternion at offset 7 is valid (single field
0x40000000, reduced sum exactly 2 to the 28) and whose magnetometer triple
at offset 0 is all zero. -/
def testRaw35 : List Nat := [0, 0, 0, 0, 0, 0, 0, 0x40, 0, 0, 0]

/-- A 35-byte-layout FIFO buffer with a valid quaternion at offset 7 and a
nonzero magnetometer triple at offset 0. -/
def testRawMag : List Nat := [1, 0, 0, 0, 0, 0]

end Mpu9250

namespace Mpu9250

/-- Bytes are below 256 after the mod-256 reduction. -/
theorem byteAt_lt (raw : List Nat) (k : Nat) : byteAt raw k < 256 :=
  Nat.mod_lt _ (by norm_num)

/-- The 32-bit big-endian pattern is below 2 to the 32. -/
theorem u32_pattern_lt (raw : List Nat) (k : Nat) :
    byteAt raw k * 2 ^ 24 + byteAt raw (k + 1) * 2 ^ 16 +
      byteAt raw (k + 2) * 2 ^ 8 + byteAt raw (k + 3) < 2 ^ 32 := by
  have h0 := byteAt_lt raw k
  have h1 := byteAt_lt raw (k + 1)
  have h2 := byteAt_lt raw (k + 2)
  have h3 := byteAt_lt raw (k + 3)
  omega

/-- Range of a decoded signed 32-bit field. -/
theorem decode_s32be_range (raw : List Nat) (k : Nat) :
    -2 ^ 31 ≤ decode_s32be raw k ∧ decode_s32be raw k < 2 ^ 31 := by
  unfold decode_s32be toInt32
  have h := u32_pattern_lt raw k
  split <;> constructor <;> omega

/-- Range of the reduced quaternion fields. -/
theorem quat_q14_range (raw : List Nat) (i : Nat) (k : Nat) :
    -2 ^ 15 ≤ quat_q14 raw i k ∧ quat_q14 raw i k < 2 ^ 15 := by
  unfold quat_q14 asr16
  obtain ⟨hlo, hhi⟩ := decode_s32be_range raw (i + 4 * k)
  rw [Int.fdiv_eq_ediv _ (by norm_num)]
  set v := decode_s32be raw (i + 4 * k) with hv
  constructor
  · have h := Int.ediv_le_ediv (a := (-2 ^ 31 : Int)) (b := v) (c := 2 ^ 16)
      (by norm_num) hlo
    have : ((-2 ^ 31 : Int)) / 2 ^ 16 = -2 ^ 15 := by decide
    omega
  · have h := Int.ediv_le_ediv (a := v) (b := (2 ^ 31 - 1 : Int)) (c := 2 ^ 16)
      (by norm_num) (by omega)
    have : ((2 ^ 31 - 1 : Int)) / 2 ^ 16 = 2 ^ 15 - 1 := by decide
    omega

/-- The squared sum lies between 0 and 2 to the 32. -/
theorem quat_mag_sq_range (raw : List Nat) (i : Nat) :
    0 ≤ quat_mag_sq raw i ∧ quat_mag_sq raw i ≤ 2 ^ 32 := by
  obtain ⟨a0, b0⟩ := quat_q14_range raw i 0
  obtain ⟨a1, b1⟩ := quat_q14_range raw i 1
  obtain ⟨a2, b2⟩ := quat_q14_range raw i 2
  obtain ⟨a3, b3⟩ := quat_q14_range raw i 3
  unfold quat_mag_sq
  constructor
  · nlinarith [mul_self_nonneg (quat_q14 raw i 0), mul_self_nonneg (quat_q14 raw i 1),
      mul_self_nonneg (quat_q14 raw i 2), mul_self_nonneg (quat_q14 raw i 3)]
  · nlinarith

/-- wrap32 is the identity inside the signed 32-bit range. -/
theorem wrap32_eq_self (v : Int) (h1 : -2 ^ 31 ≤ v) (h2 : v < 2 ^ 31) :
    wrap32 v = v := by
  unfold wrap32
  rw [Int.emod_eq_of_lt (by omega) (by omega)]
  omega

/-- wrap32 subtracts 2 to the 32 on the first overflow band. -/
theorem wrap32_eq_sub (v : Int) (h1 : 2 ^ 31 ≤ v) (h2 : v < 3 * 2 ^ 31) :
    wrap32 v = v - 2 ^ 32 := by
  unfold wrap32
  have hrw : v + 2 ^ 31 = (v - 2 ^ 31) + 2 ^ 32 * 1 := by ring
  rw [hrw, Int.add_mul_emod_self_left, Int.emod_eq_of_lt (by omega) (by omega)]
  omega

/-- C2: for every candidate 16-byte sub-record, check_quaternion_validity
accepts exactly when the sum of the four squared right-shifted signed
32-bit big-endian fields lies in the inclusive band from 2^28 - 2^16 to
2^28 + 2^16; the band edges equal those constants, so a sum exactly at the
nominal 2^28 passes, and any sum outside the band on either side is
rejected. -/
theorem check_quaternion_validity_iff_band (raw : List Nat) (i : Nat) :
    (check_quaternion_validity raw i = true ↔
      QUAT_MAG_SQ_MIN ≤ quat_mag_sq raw i ∧ quat_mag_sq raw i ≤ QUAT_MAG_SQ_MAX) ∧
    QUAT_MAG_SQ_MIN = 2 ^ 28 - 2 ^ 16 ∧ QUAT_MAG_SQ_MAX = 2 ^ 28 + 2 ^ 16 := by
  refine ⟨?_, by norm_num [QUAT_MAG_SQ_MIN, QUAT_MAG_SQ_NORMALIZED, QUAT_ERROR_THRESH],
    by norm_num [QUAT_MAG_SQ_MAX, QUAT_MAG_SQ_NORMALIZED, QUAT_ERROR_THRESH]⟩
  obtain ⟨hs0, hs32⟩ := quat_mag_sq_range raw i
  have hmin : QUAT_MAG_SQ_MIN = 2 ^ 28 - 2 ^ 16 := by
    norm_num [QUAT_MAG_SQ_MIN, QUAT_MAG_SQ_NORMALIZED, QUAT_ERROR_THRESH]
  have hmax : QUAT_MAG_SQ_MAX = 2 ^ 28 + 2 ^ 16 := by
    norm_num [QUAT_MAG_SQ_MAX, QUAT_MAG_SQ_NORMALIZED, QUAT_ERROR_THRESH]
  unfold check_quaternion_validity
  by_cases hlt : quat_mag_sq raw i < 2 ^ 31
  · rw [wrap32_eq_self _ (by omega) hlt]
    dsimp only
    split_ifs with hc
    · simp only [Bool.false_eq_true, false_iff]
      omega
    · simp only [true_iff]
      push_neg at hc
      omega
  · rw [wrap32_eq_sub _ (by omega) (by omega)]
    dsimp only
    split_ifs with hc
    · simp only [Bool.false_eq_true, false_iff]
      omega
    · push_neg at hc
      simp only [true_iff]
      omega

/-- Projection fact: the DMP sub-record parse never touches the
magnetometer field of the record. -/
theorem parse_dmp_section_mag (mo : MathOps) (raw : List Nat) (j : Nat)
    (d : ImuData) : (parse_dmp_section mo raw j d).mag = d.mag := rfl

/-- Projection fact: the data_fusion effect never touches the magnetometer
field of the record. -/
theorem apply_data_fusion_mag (fv : Option FusionVals) (d : ImuData) :
    (apply_data_fusion fv d).mag = d.mag := by
  cases fv <;> rfl

/-- Table equality established count by count. -/
theorem classify_eq_table_aux (n : Nat) :
    classify_fifo_count n = spec_fifo_table n := by
  by_cases h0 : n = 0
  · subst h0; rfl
  by_cases h7 : n = 7
  · subst h7; rfl
  by_cases h14 : n = 14
  · subst h14; rfl
  by_cases h21 : n = 21
  · subst h21; rfl
  by_cases h28 : n = 28
  · subst h28; rfl
  by_cases h35 : n = 35
  · subst h35; rfl
  by_cases h42 : n = 42
  · subst h42; rfl
  by_cases h56 : n = 56
  · subst h56; rfl
  by_cases h63 : n = 63
  · subst h63; rfl
  by_cases h70 : n = 70
  · subst h70; rfl
  by_cases h77 : n = 77
  · subst h77; rfl
  simp [classify_fifo_count, spec_fifo_table, FIFO_LEN_NO_MAG, FIFO_LEN_MAG,
    h0, h7, h14, h21, h28, h35, h42, h56, h63, h70, h77]

/-- C1: the byte-count dispatch of read_dmp_fifo agrees with the fixed
table of claim C1 at every count: 28 and 35 are one packet at offset 0 (35
with magnetometer data), 56 and 70 keep only the most recent packet at
offsets 28 and 35, degraded counts 42, 63, 77 parse at offsets 7, 28, 42
with no magnetometer data, 7, 14, 21 are magnetometer-only at offset
count minus 7, and every other count is corruption; moreover a zero count
makes read_dmp_fifo report failure with no FIFO reset and the sample
record untouched. -/
theorem classify_fifo_count_eq_spec_table :
    (∀ n, classify_fifo_count n = spec_fifo_table n) ∧
    ∀ (mo : MathOps) (fv : Option FusionVals) (inp : FifoCycleInput)
      (d0 : ImuData),
      read_dmp_fifo mo fv
        { inp with dmp_en := true, packet_len := FIFO_LEN_NO_MAG,
                   fifo_count_read := some 0 } d0 = mkFail d0 inp.mag_scales 0 := by
  constructor
  · intro n
    exact classify_eq_table_aux n
  · intro mo fv inp d0
    simp [read_dmp_fifo, classify_fifo_count]

/-- C3: when read_dmp_fifo hits a packet-alignment error, either an
unrecognized FIFO byte count or a coprocessor-bearing count whose
quaternion fails the validity check both at the magnetometer-before
offset i+7 and at the magnetometer-after offset i, it resets the FIFO
exactly once, returns failure, and leaves every field of the caller's
sample record (and the magnetometer scale globals) unchanged. -/
theorem alignment_error_resets_and_preserves_record :
    (∀ (mo : MathOps) (fv : Option FusionVals) (inp : FifoCycleInput)
      (d0 : ImuData) (n : Nat),
      classify_fifo_count n = FifoClass.corrupt →
      read_dmp_fifo mo fv
        { inp with dmp_en := true, packet_len := FIFO_LEN_NO_MAG,
                   fifo_count_read := some n } d0 = mkFail d0 inp.mag_scales 1) ∧
    (∀ (mo : MathOps) (fv : Option FusionVals) (inp : FifoCycleInput)
      (d0 : ImuData) (n : Nat) (raw : List Nat) (i : Nat) (mag_av : Bool),
      classify_fifo_count n = FifoClass.data i mag_av true →
      check_quaternion_validity raw (i + 7) = false →
      check_quaternion_validity raw i = false →
      read_dmp_fifo mo fv
        { inp with dmp_en := true, packet_len := FIFO_LEN_NO_MAG,
                   fifo_count_read := some n, fifo_read := some raw } d0 =
        mkFail d0 inp.mag_scales 1) := by
  constructor
  · intro mo fv inp d0 n h
    simp [read_dmp_fifo, h]
  · intro mo fv inp d0 n raw i mag_av h h7 hi
    simp [read_dmp_fifo, h, locate_quat, h7, hi]

/-- C5: read_dmp_fifo returns 0 exactly when the cycle parsed new DMP
data; in particular a magnetometer-only count returns -1 even though the
magnetometer sub-record is decoded and stored in the sample record. -/
theorem read_dmp_fifo_success_iff_new_dmp_data :
    (∀ (mo : MathOps) (fv : Option FusionVals) (inp : FifoCycleInput)
      (d0 : ImuData),
      ((read_dmp_fifo mo fv inp d0).ret = 0 ↔
        (read_dmp_fifo mo fv inp d0).is_new_dmp_data = true)) ∧
    (∀ (mo : MathOps) (fv : Option FusionVals) (inp : FifoCycleInput)
      (d0 : ImuData) (n : Nat) (raw : List Nat) (i : Nat),
      classify_fifo_count n = FifoClass.data i true false →
      ¬(decode_s16le raw (i + 0) = 0 ∧ decode_s16le raw (i + 2) = 0 ∧
        decode_s16le raw (i + 4) = 0) →
      read_dmp_fifo mo fv
        { inp with dmp_en := true, packet_len := FIFO_LEN_MAG,
                   fifo_count_read := some n, fifo_read := some raw } d0 =
        ⟨-1, false,
          (parse_mag_section true raw i inp.mag_factory_adjust
            inp.mag_offsets inp.mag_scales d0).1,
          (parse_mag_section true raw i inp.mag_factory_adjust
            inp.mag_offsets inp.mag_scales d0).2, 0⟩) := by
  constructor
  · intro mo fv inp d0
    unfold read_dmp_fifo
    repeat' split
    all_goals simp [mkFail]
  · intro mo fv inp d0 n raw i h hnz
    simp [read_dmp_fifo, h]

/-- C10: when the decoded magnetometer triple of a cycle is exactly
(0,0,0) the magnetometer field of the sample record is left unchanged
while the rest of the cycle proceeds normally: in the coprocessor case the
cycle still succeeds (and the scale globals are untouched), and in the
magnetometer-only case the cycle fails as usual. -/
theorem zero_mag_triple_leaves_mag_unchanged :
    (∀ (mo : MathOps) (fv : Option FusionVals) (inp : FifoCycleInput)
      (d0 : ImuData) (n : Nat) (raw : List Nat) (i j i2 : Nat),
      classify_fifo_count n = FifoClass.data i true true →
      locate_quat inp.enable_magnetometer raw i = some (j, i2) →
      decode_s16le raw i2 = 0 → decode_s16le raw (i2 + 2) = 0 →
      decode_s16le raw (i2 + 4) = 0 →
      (read_dmp_fifo mo fv
        { inp with dmp_en := true, packet_len := FIFO_LEN_MAG,
                   fifo_count_read := some n, fifo_read := some raw } d0).data.mag =
        d0.mag ∧
      (read_dmp_fifo mo fv
        { inp with dmp_en := true, packet_len := FIFO_LEN_MAG,
                   fifo_count_read := some n, fifo_read := some raw } d0).ret = 0 ∧
      (read_dmp_fifo mo fv
        { inp with dmp_en := true, packet_len := FIFO_LEN_MAG,
                   fifo_count_read := some n, fifo_read := some raw } d0).mag_scales =
        inp.mag_scales) ∧
    (∀ (mo : MathOps) (fv : Option FusionVals) (inp : FifoCycleInput)
      (d0 : ImuData) (n : Nat) (raw : List Nat) (i : Nat),
      classify_fifo_count n = FifoClass.data i true false →
      decode_s16le raw i = 0 → decode_s16le raw (i + 2) = 0 →
      decode_s16le raw (i + 4) = 0 →
      (read_dmp_fifo mo fv
        { inp with dmp_en := true, packet_len := FIFO_LEN_MAG,
                   fifo_count_read := some n, fifo_read := some raw } d0).data.mag =
        d0.mag ∧
      (read_dmp_fifo mo fv
        { inp with dmp_en := true, packet_len := FIFO_LEN_MAG,
                   fifo_count_read := some n, fifo_read := some raw } d0).ret = -1) := by
  constructor
  · intro mo fv inp d0 n raw i j i2 h hloc hz0 hz2 hz4
    simp only [read_dmp_fifo, h]
    simp [hloc, parse_mag_section, hz0, hz2, hz4, mkFail]
    split <;> simp [apply_data_fusion_mag, parse_dmp_section_mag]
  · intro mo fv inp d0 n raw i h hz0 hz2 hz4
    simp [read_dmp_fifo, h, parse_mag_section, hz0, hz2, hz4, mkFail]

/-- C3 witness: the unrecognized count 31 resets and fails with the record
untouched, and a 28-byte packet whose quaternion is invalid at both
candidate offsets (an all-zero buffer) does the same. -/
theorem alignment_error_witness :
    (classify_fifo_count 31 = FifoClass.corrupt ∧
      read_dmp_fifo testMathOps none
        { testInput with dmp_en := true, packet_len := FIFO_LEN_NO_MAG,
                         fifo_count_read := some 31 } testImuData =
        mkFail testImuData testInput.mag_scales 1) ∧
    (classify_fifo_count 28 = FifoClass.data 0 false true ∧
      check_quaternion_validity [] (0 + 7) = false ∧
      check_quaternion_validity [] 0 = false ∧
      read_dmp_fifo testMathOps none
        { testInput with dmp_en := true, packet_len := FIFO_LEN_NO_MAG,
                         fifo_count_read := some 28, fifo_read := some [] }
        testImuData = mkFail testImuData testInput.mag_scales 1) :=
  ⟨⟨by decide,
    alignment_error_resets_and_preserves_record.1 testMathOps none testInput
      testImuData 31 (by decide)⟩,
   ⟨by decide, by decide, by decide,
    alignment_error_resets_and_preserves_record.2 testMathOps none testInput
      testImuData 28 [] 0 false (by decide) (by decide) (by decide)⟩⟩

/-- C5 witness: the magnetometer-only count 7 with a nonzero decoded
triple stores the magnetometer data yet returns -1. -/
theorem mag_only_failure_witness :
    classify_fifo_count 7 = FifoClass.data 0 true false ∧
    ¬(decode_s16le testRawMag (0 + 0) = 0 ∧ decode_s16le testRawMag (0 + 2) = 0 ∧
      decode_s16le testRawMag (0 + 4) = 0) ∧
    read_dmp_fifo testMathOps none
      { testInput with dmp_en := true, packet_len := FIFO_LEN_MAG,
                       fifo_count_read := some 7, fifo_read := some testRawMag }
      testImuData =
      ⟨-1, false,
        (parse_mag_section true testRawMag 0 testInput.mag_factory_adjust
          testInput.mag_offsets testInput.mag_scales testImuData).1,
        (parse_mag_section true testRawMag 0 testInput.mag_factory_adjust
          testInput.mag_offsets testInput.mag_scales testImuData).2, 0⟩ :=
  ⟨by decide, by decide,
   read_dmp_fifo_success_iff_new_dmp_data.2 testMathOps none testInput
     testImuData 7 testRawMag 0 (by decide) (by decide)⟩

/-- C10 witness: a 35-byte packet with a valid quaternion at offset 7 and
an all-zero magnetometer triple at offset 0 succeeds while leaving the
record's magnetometer field unchanged, and the magnetometer-only count 7
over an all-zero buffer fails while leaving it unchanged. -/
theorem zero_mag_triple_witness :
    (classify_fifo_count 35 = FifoClass.data 0 true true ∧
      locate_quat testInputMag.enable_magnetometer testRaw35 0 = some (7, 0) ∧
      decode_s16le testRaw35 0 = 0 ∧ decode_s16le testRaw35 (0 + 2) = 0 ∧
      decode_s16le testRaw35 (0 + 4) = 0 ∧
      (read_dmp_fifo testMathOps none
        { testInputMag with dmp_en := true, packet_len := FIFO_LEN_MAG,
                            fifo_count_read := some 35,
                            fifo_read := some testRaw35 }
        testImuData).data.mag = testImuData.mag ∧
      (read_dmp_fifo testMathOps none
        { testInputMag with dmp_en := true, packet_len := FIFO_LEN_MAG,
                            fifo_count_read := some 35,
                            fifo_read := some testRaw35 }
        testImuData).ret = 0) ∧
    (classify_fifo_count 7 = FifoClass.data 0 true false ∧
      (read_dmp_fifo testMathOps none
        { testInput with dmp_en := true, packet_len := FIFO_LEN_MAG,
                         fifo_count_read := some 7, fifo_read := some [] }
        testImuData).data.mag = testImuData.mag ∧
      (read_dmp_fifo testMathOps none
        { testInput with dmp_en := true, packet_len := FIFO_LEN_MAG,
                         fifo_count_read := some 7, fifo_read := some [] }
        testImuData).ret = -1) :=
  ⟨⟨by decide, by decide, by decide, by decide, by decide,
    (zero_mag_triple_leaves_mag_unchanged.1 testMathOps none testInputMag
      testImuData 35 testRaw35 0 7 0 (by decide) (by decide) (by decide)
      (by decide) (by decide)).1,
    (zero_mag_triple_leaves_mag_unchanged.1 testMathOps none testInputMag
      testImuData 35 testRaw35 0 7 0 (by decide) (by decide) (by decide)
      (by decide) (by decide)).2.1⟩,
   ⟨by decide,
    (zero_mag_triple_leaves_mag_unchanged.2 testMathOps none testInput
      testImuData 7 [] 0 (by decide) (by decide) (by decide) (by decide)).1,
    (zero_mag_triple_leaves_mag_unchanged.2 testMathOps none testInput
      testImuData 7 [] 0 (by decide) (by decide) (by decide) (by decide)).2⟩⟩

/-- C4: every valid full-scale enum value stores the documented conversion
factor, 9.807 times range/32768 for the accelerometer with range in 2, 4,
8, 16 and range/32768 for the gyro with range in 250, 500, 1000, 2000,
and then reaches the register write whose bus result it returns; the
invalid value returns -1 with no factor stored and no register write. -/
theorem fsr_conversion_factors (bus_ret : Int) :
    set_gyro_fsr .G_FSR_250DPS bus_ret = ⟨bus_ret, some (gyro_conv 250), true⟩ ∧
    set_gyro_fsr .G_FSR_500DPS bus_ret = ⟨bus_ret, some (gyro_conv 500), true⟩ ∧
    set_gyro_fsr .G_FSR_1000DPS bus_ret = ⟨bus_ret, some (gyro_conv 1000), true⟩ ∧
    set_gyro_fsr .G_FSR_2000DPS bus_ret = ⟨bus_ret, some (gyro_conv 2000), true⟩ ∧
    set_gyro_fsr .invalid_gyro_fsr bus_ret = ⟨-1, none, false⟩ ∧
    set_accel_fsr .A_FSR_2G bus_ret = ⟨bus_ret, some (accel_conv 2), true⟩ ∧
    set_accel_fsr .A_FSR_4G bus_ret = ⟨bus_ret, some (accel_conv 4), true⟩ ∧
    set_accel_fsr .A_FSR_8G bus_ret = ⟨bus_ret, some (accel_conv 8), true⟩ ∧
    set_accel_fsr .A_FSR_16G bus_ret = ⟨bus_ret, some (accel_conv 16), true⟩ ∧
    set_accel_fsr .invalid_accel_fsr bus_ret = ⟨-1, none, false⟩ := by
  refine ⟨?_, ?_, ?_, ?_, rfl, ?_, ?_, ?_, ?_, rfl⟩ <;>
    simp [set_gyro_fsr, set_accel_fsr, gyro_conv, accel_conv]

/-- Helper: once the first event has been processed, every later event
invokes the callback exactly when one is registered and its drain
succeeded. -/
theorem imu_interrupt_run_false (es : List (Bool × Int)) :
    imu_interrupt_run false es = es.map fun p => p.1 && decide (p.2 = 0) := by
  induction es with
  | nil => rfl
  | cons e t ih => simp [imu_interrupt_run, imu_interrupt_event, ih]

/-- C6 counterexample: in the run whose first processed interrupt event
has a failed drain (return -1) and whose second has a successful drain
(return 0), with a callback registered throughout, the invocation trace is
false then true: the callback is invoked on the very first successful
drain, contradicting the claim that it never is. -/
theorem callback_on_first_successful_drain :
    imu_interrupt_run true [(true, -1), (true, 0)] = [false, true] ∧
    (-1 : Int) ≠ 0 := by decide

/-- C6 (amended): the handler never invokes the callback on the first
processed interrupt event after start-up, whether or not that drain
succeeded; on every later processed event the callback is invoked exactly
when one is registered at that moment and the drain succeeded. -/
theorem callback_skipped_on_first_event (e : Bool × Int)
    (es : List (Bool × Int)) :
    imu_interrupt_run true (e :: es) =
      false :: es.map fun p => p.1 && decide (p.2 = 0) := by
  simp [imu_interrupt_run, imu_interrupt_event, imu_interrupt_run_false]

/-- C7 counterexample: a rate of 0 passes the guard of dmp_set_fifo_rate
(it is not above the maximum) yet the divider computation
DMP_MAX_RATE / rate - 1 is a division by zero, so the claim that the
divider is well defined for every accepted rate fails. -/
theorem fifo_rate_zero_divider_undefined :
    (dmp_set_fifo_rate 0).rejected = false ∧
    (dmp_set_fifo_rate 0).divider = none := by decide

/-- C7 (amended): dmp_set_fifo_rate rejects a rate exactly when it
exceeds DMP_MAX_RATE, writing nothing in that case; and for every
accepted rate of at least 1 the divider DMP_MAX_RATE / rate - 1 is well
defined and the two divider bytes followed by the fixed 12-byte trailer
are written. Rate 0 is the one accepted value outside this guarantee (see
the counterexample). -/
theorem fifo_rate_guard_and_writes :
    (∀ rate : Nat, (dmp_set_fifo_rate rate).rejected = true ↔
      DMP_MAX_RATE < rate) ∧
    (∀ rate : Nat, DMP_MAX_RATE < rate →
      dmp_set_fifo_rate rate = ⟨true, none, []⟩) ∧
    (∀ rate : Nat, 1 ≤ rate → rate ≤ DMP_MAX_RATE →
      dmp_set_fifo_rate rate =
        ⟨false, some (DMP_MAX_RATE / rate - 1),
         [[(DMP_MAX_RATE / rate - 1) / 2 ^ 8 % 2 ^ 8,
           (DMP_MAX_RATE / rate - 1) % 2 ^ 8], regs_end]⟩ ∧
      regs_end.length = 12) := by
  refine ⟨?_, ?_, ?_⟩
  · intro rate
    by_cases h : DMP_MAX_RATE < rate
    · simp [dmp_set_fifo_rate, h]
    · by_cases h0 : rate = 0 <;> simp [dmp_set_fifo_rate, h, h0]
  · intro rate h
    simp [dmp_set_fifo_rate, h]
  · intro rate h1 h2
    have h : ¬DMP_MAX_RATE < rate := by omega
    have h0 : ¬rate = 0 := by omega
    exact ⟨by simp [dmp_set_fifo_rate, h, h0], by decide⟩

/-- C7 witness: rate 100 is accepted with a well-defined divider and the
divider-plus-trailer writes, and rate 201 is rejected with no writes. -/
theorem fifo_rate_witness :
    (1 ≤ 100 ∧ 100 ≤ DMP_MAX_RATE ∧
      dmp_set_fifo_rate 100 =
        ⟨false, some (DMP_MAX_RATE / 100 - 1),
         [[(DMP_MAX_RATE / 100 - 1) / 2 ^ 8 % 2 ^ 8,
           (DMP_MAX_RATE / 100 - 1) % 2 ^ 8], regs_end]⟩) ∧
    (DMP_MAX_RATE < 201 ∧ dmp_set_fifo_rate 201 = ⟨true, none, []⟩) :=
  ⟨⟨by decide, by decide,
    (fifo_rate_guard_and_writes.2.2 100 (by decide) (by decide)).1⟩,
   ⟨by decide, fifo_rate_guard_and_writes.2.1 201 (by decide)⟩⟩

/-- Evaluation of the firmware chunk loop against a failure-free device
whose memory reads back as the list rb: the loop returns the corruption
code -2 exactly when rb disagrees with the remaining image, and
otherwise falls through to the program-start write. -/
theorem dmp_load_loop_pure (rb : List Nat) (L : Nat) (sOk : Bool) :
    ∀ (n : Nat) (rest : List Nat) (ii : Nat), rest.length = n →
      ii + rest.length = L →
      dmp_load_loop (pure_device rb L) sOk ii rest =
        if (rb.drop ii).take rest.length = rest then (if sOk then 0 else -1)
        else -2 := by
  intro n
  induction n using Nat.strong_induction_on with
  | _ n ih =>
    intro rest ii hn hL
    match rest with
    | [] => simp [dmp_load_loop]
    | a :: t =>
      have hLii : L - ii = (a :: t).length := by omega
      have hwle : min DMP_LOAD_CHUNK (a :: t).length ≤ (a :: t).length :=
        Nat.min_le_right _ _
      have hlen1 : 0 < (a :: t).length := by simp
      have hwpos : 0 < min DMP_LOAD_CHUNK (a :: t).length := by
        simp only [DMP_LOAD_CHUNK]
        omega
      set w := min DMP_LOAD_CHUNK (a :: t).length with hw
      have hwrite : (pure_device rb L).write_ok ii = true := rfl
      have hread : (pure_device rb L).read_res ii =
          some ((rb.drop ii).take w) := by
        show some ((rb.drop ii).take (min DMP_LOAD_CHUNK (L - ii))) = _
        rw [hLii]
      have step : dmp_load_loop (pure_device rb L) sOk ii (a :: t) =
          if (rb.drop ii).take w = (a :: t).take w then
            dmp_load_loop (pure_device rb L) sOk (ii + w) ((a :: t).drop w)
          else -2 := by
        rw [dmp_load_loop]
        simp only [hwrite, hread, ← hw]
        simp
      rw [step]
      by_cases hc : (rb.drop ii).take w = (a :: t).take w
      · rw [if_pos hc]
        have hlt : ((a :: t).drop w).length < n := by
          rw [List.length_drop]
          omega
        have hinv : (ii + w) + ((a :: t).drop w).length = L := by
          rw [List.length_drop]
          omega
        rw [ih ((a :: t).drop w).length hlt ((a :: t).drop w) (ii + w) rfl hinv]
        have hsplit : (rb.drop ii).take (a :: t).length =
            (a :: t).take w ++ (rb.drop (ii + w)).take ((a :: t).length - w) := by
          have h1 : (a :: t).length = w + ((a :: t).length - w) := by omega
          conv_lhs => rw [h1]
          rw [List.take_add, List.drop_drop, hc]
        have hiff : ((rb.drop (ii + w)).take (((a :: t).drop w).length) =
            (a :: t).drop w) ↔
            ((rb.drop ii).take (a :: t).length = a :: t) := by
          rw [List.length_drop]
          constructor
          · intro htail
            rw [hsplit, htail]
            exact List.take_append_drop w (a :: t)
          · intro hfull
            have h2 : (a :: t).take w ++
                (rb.drop (ii + w)).take ((a :: t).length - w) =
                (a :: t).take w ++ (a :: t).drop w := by
              rw [← hsplit, hfull, List.take_append_drop w (a :: t)]
            exact (List.append_right_inj _).mp h2
        rw [if_congr hiff rfl rfl]
      · rw [if_neg hc]
        have hne2 : ¬((rb.drop ii).take (a :: t).length = a :: t) := by
          intro he
          apply hc
          have h2 := congrArg (List.take w) he
          rwa [List.take_take, min_eq_left hwle] at h2
        rw [if_neg hne2]

/-- C8: the firmware loader walks the image in bounded chunks with
read-back verification; against a failure-free device any read-back
disagreement with the image, including a single corrupted byte anywhere,
makes the load return the corruption code -2, which is distinct from the
transport code -1 returned on bus I/O failure, while a faithful read-back
lets the load complete. -/
theorem firmware_load_detects_corruption :
    ((-2 : Int) ≠ -1) ∧
    (∀ (image rb : List Nat) (sOk : Bool),
      rb.take image.length ≠ image →
      dmp_load_motion_driver_firmware (pure_device rb image.length) image
        sOk = -2) ∧
    (∀ (image : List Nat) (p b : Nat) (sOk : Bool),
      p < image.length → b ≠ image.getD p 0 →
      dmp_load_motion_driver_firmware
        (pure_device (image.set p b) image.length) image sOk = -2) ∧
    (∀ (dev : DmpDevice) (image : List Nat) (sOk : Bool),
      dev.write_ok 0 = false → image ≠ [] →
      dmp_load_motion_driver_firmware dev image sOk = -1) ∧
    (∀ (image : List Nat) (sOk : Bool),
      dmp_load_motion_driver_firmware (pure_device image image.length) image
        sOk = if sOk then 0 else -1) := by
  have key : ∀ (image rb : List Nat) (sOk : Bool),
      dmp_load_motion_driver_firmware (pure_device rb image.length) image sOk =
        if rb.take image.length = image then (if sOk then 0 else -1)
        else -2 := by
    intro image rb sOk
    unfold dmp_load_motion_driver_firmware
    rw [dmp_load_loop_pure rb image.length sOk image.length image 0 rfl
      (by simp)]
    rw [List.drop_zero]
  refine ⟨by decide, ?_, ?_, ?_, ?_⟩
  · intro image rb sOk hne
    rw [key, if_neg hne]
  · intro image p b sOk hp hb
    have hlen : (image.set p b).length = image.length := List.length_set ..
    have hne : (image.set p b).take image.length ≠ image := by
      intro he
      have he2 : image.set p b = image := by
        calc image.set p b = (image.set p b).take (image.set p b).length :=
              (List.take_length _).symm
          _ = (image.set p b).take image.length := by rw [hlen]
          _ = image := he
      apply hb
      have hp2 : p < (image.set p b).length := by
        rw [hlen]
        exact hp
      have h1 : (image.set p b).getD p 0 = b := by
        rw [List.getD_eq_getElem _ 0 hp2]
        exact List.getElem_set_self hp2
      have h2 : (image.set p b).getD p 0 = image.getD p 0 := by rw [he2]
      rw [← h1, h2]
    rw [key, if_neg hne]
  · intro dev image sOk hw hne
    match image with
    | [] => exact absurd rfl hne
    | a :: t =>
      rw [dmp_load_motion_driver_firmware, dmp_load_loop]
      simp [hw]
  · intro image sOk
    rw [key, if_pos (by rw [List.take_length])]

/-- C8 witness: a read-back image differing in its first byte is reported
as corruption -2, the single-corrupted-byte device likewise, a device
whose first chunk write fails reports the transport code -1, and a
faithful device loads cleanly. -/
theorem firmware_load_witness :
    (([9, 2, 3] : List Nat).take ([1, 2, 3] : List Nat).length ≠ [1, 2, 3] ∧
      dmp_load_motion_driver_firmware
        (pure_device [9, 2, 3] ([1, 2, 3] : List Nat).length) [1, 2, 3]
        true = -2) ∧
    (0 < ([1, 2, 3] : List Nat).length ∧ 9 ≠ ([1, 2, 3] : List Nat).getD 0 0 ∧
      dmp_load_motion_driver_firmware
        (pure_device (([1, 2, 3] : List Nat).set 0 9)
          ([1, 2, 3] : List Nat).length) [1, 2, 3] true = -2) ∧
    ((⟨fun _ => false, fun _ => none⟩ : DmpDevice).write_ok 0 = false ∧
      ([1] : List Nat) ≠ [] ∧
      dmp_load_motion_driver_firmware
        (⟨fun _ => false, fun _ => none⟩ : DmpDevice) [1] true = -1) :=
  ⟨⟨by decide,
    firmware_load_detects_corruption.2.1 [1, 2, 3] [9, 2, 3] true (by decide)⟩,
   ⟨by decide, by decide,
    firmware_load_detects_corruption.2.2.1 [1, 2, 3] 0 9 true (by decide)
      (by decide)⟩,
   ⟨rfl, by decide,
    firmware_load_detects_corruption.2.2.2.1
      (⟨fun _ => false, fun _ => none⟩ : DmpDevice) [1] true rfl
      (by decide)⟩⟩

/-- C9: one COLLECT_DATA pass of calibrate_gyro_routine reaches the
persist step exactly for a dataset within both bounds, per-axis standard
deviation at most the noise threshold 50 (variance form) and per-axis
offset magnitude at most 500; any dataset violating either bound makes
the pass retry with nothing written, and when offsets are persisted they
are exactly the truncated per-axis means. -/
theorem gyro_calibration_persist_iff_quiet
    (triples : List (Int × Int × Int)) (hne : triples ≠ []) :
    ((∃ x y z, gyro_iteration triples = .persist x y z) ↔
      gyro_dataset_quiet triples) ∧
    (¬gyro_dataset_quiet triples → gyro_iteration triples = .retry) ∧
    (∀ x y z, gyro_iteration triples = .persist x y z →
      (x, y, z) = gyro_offsets triples) := by
  have hiter : gyro_iteration triples =
      if gyro_dataset_quiet triples then
        .persist (gyro_offsets triples).1 (gyro_offsets triples).2.1
          (gyro_offsets triples).2.2
      else .retry := by
    by_cases hq : gyro_dataset_quiet triples
    · rw [if_pos hq]
      obtain ⟨hv1, hv2, hv3, ho1, ho2, ho3⟩ := hq
      unfold gyro_offsets at ho1 ho2 ho3 ⊢
      dsimp only at ho1 ho2 ho3 ⊢
      unfold gyro_iteration
      dsimp only
      rw [if_neg (by push_neg; exact ⟨hv1, hv2, hv3⟩),
        if_neg (by push_neg; exact ⟨ho1, ho2, ho3⟩)]
    · rw [if_neg hq]
      unfold gyro_iteration
      dsimp only
      by_cases hV : (GYRO_CAL_THRESH : ℚ) * GYRO_CAL_THRESH <
          list_variance (triples.map fun t => t.1) ∨
          (GYRO_CAL_THRESH : ℚ) * GYRO_CAL_THRESH <
          list_variance (triples.map fun t => t.2.1) ∨
          (GYRO_CAL_THRESH : ℚ) * GYRO_CAL_THRESH <
          list_variance (triples.map fun t => t.2.2)
      · rw [if_pos hV]
      · rw [if_neg hV]
        have hO : GYRO_OFFSET_THRESH <
            |wrap16 (Int.tdiv (triples.map fun t => t.1).sum triples.length)| ∨
            GYRO_OFFSET_THRESH <
            |wrap16 (Int.tdiv (triples.map fun t => t.2.1).sum triples.length)| ∨
            GYRO_OFFSET_THRESH <
            |wrap16 (Int.tdiv (triples.map fun t => t.2.2).sum triples.length)| := by
          by_contra hO
          apply hq
          push_neg at hV hO
          unfold gyro_dataset_quiet gyro_offsets
          dsimp only
          exact ⟨hV.1, hV.2.1, hV.2.2, hO.1, hO.2.1, hO.2.2⟩
        rw [if_pos hO]
  refine ⟨⟨?_, ?_⟩, ?_, ?_⟩
  · rintro ⟨x, y, z, hp⟩
    rw [hiter] at hp
    by_cases hq : gyro_dataset_quiet triples
    · exact hq
    · rw [if_neg hq] at hp
      exact absurd hp (by simp)
  · intro hq
    exact ⟨_, _, _, by rw [hiter, if_pos hq]⟩
  · intro hq
    rw [hiter, if_neg hq]
  · intro x y z hp
    rw [hiter] at hp
    by_cases hq : gyro_dataset_quiet triples
    · rw [if_pos hq] at hp
      simp only [GyroCalOutcome.persist.injEq] at hp
      obtain ⟨hx, hy, hz⟩ := hp
      rw [← hx, ← hy, ← hz]
    · rw [if_neg hq] at hp
      exact absurd hp (by simp)

/-- C9 witness: the quiet one-sample dataset (1,2,3) is persisted, and a
noisy dataset whose x-axis variance is 1000000 is retried with nothing
written. -/
theorem gyro_calibration_witness :
    (([((1 : Int), (2 : Int), (3 : Int))] : List (Int × Int × Int)) ≠ [] ∧
      gyro_dataset_quiet [(1, 2, 3)] ∧
      (∃ x y z, gyro_iteration [(1, 2, 3)] = .persist x y z)) ∧
    (([((1000 : Int), (0 : Int), (0 : Int)), (-1000, 0, 0)] :
        List (Int × Int × Int)) ≠ [] ∧
      ¬gyro_dataset_quiet [(1000, 0, 0), (-1000, 0, 0)] ∧
      gyro_iteration [(1000, 0, 0), (-1000, 0, 0)] = .retry) :=
  ⟨⟨by decide,
    by norm_num [gyro_dataset_quiet, gyro_offsets, list_variance, list_mean,
      wrap16, GYRO_CAL_THRESH, GYRO_OFFSET_THRESH,
      show Int.tdiv 1 1 = 1 from rfl, show Int.tdiv 2 1 = 2 from rfl,
      show Int.tdiv 3 1 = 3 from rfl],
    (gyro_calibration_persist_iff_quiet [(1, 2, 3)] (by decide)).1.mpr
      (by norm_num [gyro_dataset_quiet, gyro_offsets, list_variance, list_mean,
        wrap16, GYRO_CAL_THRESH, GYRO_OFFSET_THRESH,
        show Int.tdiv 1 1 = 1 from rfl, show Int.tdiv 2 1 = 2 from rfl,
        show Int.tdiv 3 1 = 3 from rfl])⟩,
   ⟨by decide,
    by norm_num [gyro_dataset_quiet, gyro_offsets, list_variance, list_mean,
      wrap16, GYRO_CAL_THRESH, GYRO_OFFSET_THRESH],
    (gyro_calibration_persist_iff_quiet [(1000, 0, 0), (-1000, 0, 0)]
      (by decide)).2.1
      (by norm_num [gyro_dataset_quiet, gyro_offsets, list_variance, list_mean,
        wrap16, GYRO_CAL_THRESH, GYRO_OFFSET_THRESH])⟩⟩

end Mpu9250
